import Mathlib

/-!
Shallow embedding of the node-state evaluation engine of the Akita
Geofence Notifier for Meshtastic: the geofence membership tracker
(`core/geofence.py`), the stationary detector (`core/stationary.py`),
the notification cooldown gate (`core/notification.py`) and the
event-key construction of the periodic tick loop (`main.py`).

Python strings are modelled as `List Char`, timestamps and coordinates
as rationals.  The float-and-trigonometry Haversine distance
`calculate_distance_km` of `core/distance.py` is taken as a parameter
of type `DistFn`; `none` models its sentinel infinite return value for
missing or invalid coordinates.  Python dictionaries keyed by node id
are modelled as total functions into `Option`, `none` meaning the key
is absent.
-/

/-- A Python string, as its list of characters. -/
abbrev Str := List Char

/-- The signature of `calculate_distance_km lat1 lon1 lat2 lon2`;
`none` models the sentinel infinite return value. -/
abbrev DistFn := ℚ → ℚ → ℚ → ℚ → Option ℚ

/-- The fields of dataclass `NodeInfo` (`core/models.py`) that the
evaluation engine reads. -/
structure NodeInfo where
  node_id : Str
  name : Str
  latitude : Option ℚ
  longitude : Option ℚ
  last_heard : Option ℚ
  deriving DecidableEq

/-- Dataclass `GeofenceConfig` (`core/config.py`). -/
structure GeofenceConfig where
  name : Str
  latitude : ℚ
  longitude : ℚ
  radius_km : ℚ
  deriving DecidableEq

/-- The display-name fallback `node.name or "Node " + node_id[-4:]`
used by `geofence.py` (lines 32 and 40) and `stationary.py` (line 54);
the empty string is the only falsy `str`. -/
def nodeDisplayName (node : NodeInfo) : Str :=
  if node.name = [] then "Node ".data ++ node.node_id.drop (node.node_id.length - 4)
  else node.name

/-- One geofence notification, structured; `GeofenceModule.check_node`
appends the rendered text of each constructor in order.  `exitUnknown`
is the missing-position exit (geofence.py line 34), `enter` line 59,
`exit` line 78 (with `none` distance rendered as the unknown-distance
marker of line 77). -/
inductive GEvent where
  | exitUnknown (nodeName nodeId fenceName : Str)
  | enter (nodeName nodeId fenceName : Str) (distance radius : ℚ)
  | exit (nodeName nodeId fenceName : Str) (distance : Option ℚ) (radius : ℚ)
  deriving DecidableEq

/-- Recognizer for enter events of a given fence name. -/
def GEvent.isEnterFor (fn : Str) : GEvent → Bool
  | .enter _ _ fn' _ _ => fn' == fn
  | _ => false

/-- Recognizer for (either kind of) exit events of a given fence name. -/
def GEvent.isExitFor (fn : Str) : GEvent → Bool
  | .exit _ _ fn' _ _ => fn' == fn
  | .exitUnknown _ _ fn' => fn' == fn
  | _ => false

/-- The mutable state of class `GeofenceModule` (`core/geofence.py`):
the active fence list `self.geofences` and the per-node membership
dictionary `self._nodes_inside` (a node id maps to `none` exactly when
it is absent from the dictionary). -/
structure GeofenceState where
  geofences : List GeofenceConfig
  nodes_inside : Str → Option (List Str)

/-- Point update of a node-id-keyed dictionary. -/
def updateKey {α : Type} (m : Str → Option α) (id : Str) (v : Option α) : Str → Option α :=
  fun k => if k = id then v else m k

/-- The `__init__` state of `GeofenceModule`: the configured fences and
an empty `_nodes_inside` dictionary. -/
def GeofenceState.init (fences : List GeofenceConfig) : GeofenceState :=
  ⟨fences, fun _ => none⟩

namespace GeofenceModule

/-- The fence loop of `check_node` (geofence.py lines 45-62) restricted
to its accumulation of `currently_inside_fences`: a fence whose distance
is the invalid sentinel is skipped, one within its radius has its name
added to the set (`acc` holds the set in first-insertion order). -/
def insideAfter (dist : DistFn) (lat lon : ℚ) :
    List GeofenceConfig → List Str → List Str
  | [], acc => acc
  | f :: rest, acc =>
    match dist lat lon f.latitude f.longitude with
    | none => insideAfter dist lat lon rest acc
    | some d =>
      if d ≤ f.radius_km then
        insideAfter dist lat lon rest (if f.name ∈ acc then acc else acc ++ [f.name])
      else insideAfter dist lat lon rest acc

/-- The enter notifications emitted by the fence loop of `check_node`
(geofence.py lines 55-61): one per fence within radius whose name is not
in the previous membership set. -/
def enterEvents (dist : DistFn) (nm nodeId : Str) (lat lon : ℚ) (prev : List Str)
    (fences : List GeofenceConfig) : List GEvent :=
  fences.filterMap fun f =>
    match dist lat lon f.latitude f.longitude with
    | none => none
    | some d =>
      if d ≤ f.radius_km ∧ f.name ∉ prev then
        some (.enter nm nodeId f.name d f.radius_km)
      else none

/-- The exit loop of `check_node` (geofence.py lines 69-82): for each
exited fence name, look the fence up by name; if found, emit an exit
notification with the recomputed distance, else (state inconsistency)
only a warning is logged and nothing is emitted. -/
def exitEvents (dist : DistFn) (nm nodeId : Str) (lat lon : ℚ) (exited : List Str)
    (fences : List GeofenceConfig) : List GEvent :=
  exited.filterMap fun fn =>
    (fences.find? fun f => f.name == fn).map fun f =>
      .exit nm nodeId fn (dist lat lon f.latitude f.longitude) f.radius_km

/-- `GeofenceModule.check_node` (geofence.py lines 20-91).  Returns the
notification list and the updated state.  The missing-position branch
(lines 27-37) pops the node's membership and emits one unknown-position
exit per previously-inside fence; the main path accumulates
`currently_inside_fences`, emits enters and exits, and stores the new
membership (dropping the node's entry when it is now inside no fence,
lines 85-89). -/
def check_node (dist : DistFn) (st : GeofenceState) (node : NodeInfo) :
    List GEvent × GeofenceState :=
  match node.latitude, node.longitude with
  | some lat, some lon =>
    let nm := nodeDisplayName node
    let prev := (st.nodes_inside node.node_id).getD []
    let curr := insideAfter dist lat lon st.geofences []
    let exited := prev.filter fun fn => fn ∉ curr
    let evs := enterEvents dist nm node.node_id lat lon prev st.geofences ++
               exitEvents dist nm node.node_id lat lon exited st.geofences
    let inside' := updateKey st.nodes_inside node.node_id
      (if curr = [] then none else some curr)
    (evs, { st with nodes_inside := inside' })
  | _, _ =>
    match st.nodes_inside node.node_id with
    | some prev =>
      (prev.map fun fn => GEvent.exitUnknown (nodeDisplayName node) node.node_id fn,
       { st with nodes_inside := updateKey st.nodes_inside node.node_id none })
    | none => ([], st)

/-- `GeofenceModule.reload_geofences` (geofence.py lines 103-112):
replace the fence list from the (already updated) configuration and
clear the whole membership dictionary; no notification is produced. -/
def reload_geofences (newFences : List GeofenceConfig) (_st : GeofenceState) :
    GeofenceState :=
  { geofences := newFences, nodes_inside := fun _ => none }

end GeofenceModule

/-- One entry of a node's location history deque:
timestamp, latitude, longitude (`core/stationary.py` line 17). -/
structure Sample where
  t : ℚ
  lat : ℚ
  lon : ℚ
  deriving DecidableEq

/-- `NODE_HISTORY_MAXLEN` (stationary.py line 16). -/
def NODE_HISTORY_MAXLEN : ℕ := 50

/-- Appending to a deque with a maximum length: keep the last
`NODE_HISTORY_MAXLEN` entries of the extended sequence. -/
def appendMaxlen (h : List Sample) (s : Sample) : List Sample :=
  (h ++ [s]).drop ((h ++ [s]).length - NODE_HISTORY_MAXLEN)

/-- Point update of a totally-defaulted dictionary. -/
def updateTot {α : Type} (m : Str → α) (id : Str) (v : α) : Str → α :=
  fun k => if k = id then v else m k

/-- The module-level mutable state of `core/stationary.py`: the
defaultdict `node_location_history` (absent key reads as the empty
history) and the dict `node_stationary_state` (read with default
`False`, so absent reads as `false`). -/
structure StationaryState where
  history : Str → List Sample
  flag : Str → Bool

/-- The empty initial state of both dictionaries. -/
def StationaryState.init : StationaryState :=
  ⟨fun _ => [], fun _ => false⟩

/-- One stationary-status notification, structured;
`started` is stationary.py line 109, `ended` line 117. -/
inductive SEvent where
  | started (nodeName nodeId : Str) (timeThreshold distanceMoved : ℚ)
  | ended (nodeName nodeId : Str) (distanceMoved timeSpan : ℚ)
  deriving DecidableEq

/-- The timestamp picked at stationary.py line 35,
`node.last_heard or time.time()`: a missing or zero (falsy)
`last_heard` falls back to the current time `now`. -/
def effTimestamp (node : NodeInfo) (now : ℚ) : ℚ :=
  match node.last_heard with
  | none => now
  | some tm => if tm = 0 then now else tm

namespace StationaryModule

/-- `StationaryModule.update_node_location` (stationary.py lines 30-43).
`now` models the `time.time()` fallback used when `last_heard` is falsy
(missing or zero).  The sample is appended only when the history is
empty, or its timestamp is strictly above the last stored one and its
coordinates differ from the last stored sample. -/
def update_node_location (st : StationaryState) (node : NodeInfo) (now : ℚ) :
    StationaryState :=
  match node.latitude, node.longitude with
  | some lat, some lon =>
    let timestamp := effTimestamp node now
    let h := st.history node.node_id
    let appended := updateTot st.history node.node_id (appendMaxlen h ⟨timestamp, lat, lon⟩)
    match h.getLast? with
    | none => { st with history := appended }
    | some lastS =>
      if lastS.t < timestamp ∧ (lat ≠ lastS.lat ∨ lon ≠ lastS.lon) then
        { st with history := appended }
      else st
  | _, _ => st

/-- The silent downgrade of stationary.py lines 64-65 / 85-86 / 98-99:
clear the flag only when it was set, with no notification. -/
def downgrade (st : StationaryState) (nodeId : Str) : StationaryState :=
  if st.flag nodeId then { st with flag := updateTot st.flag nodeId false } else st

/-- `StationaryModule.check_node_stationary` (stationary.py lines
46-121).  Returns `(is_now_stationary, notification, new state)`.  The
scan of lines 75-80 walks the history backwards and anchors at the most
recent sample at least `timeThreshold` older than the latest one. -/
def check_node_stationary (dist : DistFn) (timeThreshold distThreshold : ℚ)
    (st : StationaryState) (node : NodeInfo) :
    Bool × Option SEvent × StationaryState :=
  let nodeId := node.node_id
  let nm := nodeDisplayName node
  let h := st.history nodeId
  let was := st.flag nodeId
  if h.length < 2 then (false, none, downgrade st nodeId)
  else
    match h.getLast? with
    | none => (false, none, downgrade st nodeId)
    | some lastS =>
      match h.reverse.find? (fun s => decide (timeThreshold ≤ lastS.t - s.t)) with
      | none => (false, none, downgrade st nodeId)
      | some anchor =>
        match dist anchor.lat anchor.lon lastS.lat lastS.lon with
        | none => (false, none, downgrade st nodeId)
        | some d =>
          if d ≤ distThreshold then
            if was then (true, none, st)
            else (true, some (.started nm nodeId timeThreshold d),
                  { st with flag := updateTot st.flag nodeId true })
          else
            if was then (false, some (.ended nm nodeId d (lastS.t - anchor.t)),
                         { st with flag := updateTot st.flag nodeId false })
            else (false, none, st)

/-- Whether a node is removed by `cleanup_stale_nodes` (stationary.py
lines 133-135): its history is nonempty and its newest sample is more
than the stale threshold old. -/
def isStale (now staleThreshold : ℚ) (h : List Sample) : Bool :=
  match h.getLast? with
  | none => false
  | some lastS => decide (staleThreshold < now - lastS.t)

/-- `StationaryModule.cleanup_stale_nodes` (stationary.py lines
128-141): pop history and flag of every stale node. -/
def cleanup_stale_nodes (st : StationaryState) (now staleThreshold : ℚ) :
    StationaryState :=
  { history := fun k =>
      if isStale now staleThreshold (st.history k) then [] else st.history k,
    flag := fun k =>
      if isStale now staleThreshold (st.history k) then false else st.flag k }

end StationaryModule

/-- `NOTIFICATION_COOLDOWN` (`core/notification.py` line 16). -/
def NOTIFICATION_COOLDOWN : ℚ := 60

namespace NotificationModule

/-- `NotificationModule._can_notify` (notification.py lines 24-33).
`ledger` models the dict `last_notification_time`, read with default
`0`. -/
def can_notify (ledger : Str → ℚ) (now : ℚ) (key : Str) : Bool :=
  decide (NOTIFICATION_COOLDOWN < now - ledger key)

/-- `NotificationModule.send_text_notification` (notification.py lines
35-46): dispatch when the cooldown allows it or `force` is set, stamping
the ledger at the dispatch time; otherwise drop the message and leave
the ledger untouched.  Returns whether the message was dispatched. -/
def send_text_notification (ledger : Str → ℚ) (now : ℚ) (key : Str)
    (force : Bool) : Bool × (Str → ℚ) :=
  if can_notify ledger now key || force then (true, updateTot ledger key now)
  else (false, ledger)

end NotificationModule

/-- The ASCII apostrophe, the character Python `msg.split` separates on
in `main.py` line 232. -/
def quoteChar : Char := Char.ofNat 39

/-- Python substring containment (the `in` operator on `str`). -/
def containsSub (needle hay : Str) : Bool :=
  decide (needle <:+: hay)

/-- Python `msg.split` on the apostrophe separator: maximal runs of
non-separator characters, with empty runs kept at the ends and between
adjacent separators. -/
def splitOnQuote : Str → List Str
  | [] => [[]]
  | c :: cs =>
    match splitOnQuote cs with
    | [] => [[]]
    | p :: ps => if c = quoteChar then [] :: p :: ps else (c :: p) :: ps

/-- The number-rendering primitives the Python f-strings apply to
floats and ints, abstracted: `f2`, `f1`, `f0` are formatting with two,
one and zero decimal places, `plain` is `str`.  Taken as a parameter
because float decimal rendering is outside the embedding. -/
structure Fmt where
  f2 : ℚ → Str
  f1 : ℚ → Str
  f0 : ℚ → Str
  plain : ℚ → Str

/-- The notification text built by `check_node` for each structured
event (geofence.py lines 34, 59, 77-78). -/
def renderG (fmt : Fmt) : GEvent → Str
  | .exitUnknown nm nodeId fn =>
      nm ++ " (".data ++ nodeId ++ ") exited geofence ".data ++ [quoteChar] ++ fn ++
      [quoteChar] ++ " (position unknown).".data
  | .enter nm nodeId fn d r =>
      nm ++ " (".data ++ nodeId ++ ") entered geofence ".data ++ [quoteChar] ++ fn ++
      [quoteChar] ++ " (dist ".data ++ fmt.f2 d ++ "km <= radius ".data ++
      fmt.plain r ++ "km).".data
  | .exit nm nodeId fn dOpt r =>
      nm ++ " (".data ++ nodeId ++ ") exited geofence ".data ++ [quoteChar] ++ fn ++
      [quoteChar] ++ " (dist ".data ++
      (match dOpt with
       | some d => fmt.f2 d ++ "km".data
       | none => "unknown distance".data) ++
      " > radius ".data ++ fmt.plain r ++ "km).".data

/-- The notification text built by `check_node_stationary` for each
structured event (stationary.py lines 109 and 117); distances are
scaled to meters before one-decimal formatting. -/
def renderS (fmt : Fmt) : SEvent → Str
  | .started nm nodeId timeTh d =>
      nm ++ " (".data ++ nodeId ++ ") has been stationary for >".data ++
      fmt.plain timeTh ++ "s (moved ".data ++ fmt.f1 (d * 1000) ++ "m).".data
  | .ended nm nodeId d span =>
      nm ++ " (".data ++ nodeId ++ ") is moving again (moved ".data ++
      fmt.f1 (d * 1000) ++ "m in ".data ++ fmt.f0 span ++ "s).".data

/-- The throttle key the periodic check loop builds for the `i`-th
geofence notification text of a node (`main.py` lines 228-234): the
kind is guessed from the substring `entered`, the fence name from the
second apostrophe-separated part of the message. -/
def geofence_event_key (nodeId : Str) (i : ℕ) (msg : Str) : Str :=
  let event_type := if containsSub "entered".data msg then "geofence_enter".data
                    else "geofence_exit".data
  let parts := splitOnQuote msg
  let fence_name_guess := if 1 < parts.length then parts.get! 1
                          else "unknown".data ++ (Nat.repr i).data
  event_type ++ "_".data ++ nodeId ++ "_".data ++ fence_name_guess

/-- The throttle key the periodic check loop builds for a stationary
notification text of a node (`main.py` lines 242-244): the kind is
guessed from the substring `has been stationary`; no fence segment is
appended. -/
def stationary_event_key (nodeId : Str) (msg : Str) : Str :=
  let event_type := if containsSub "has been stationary".data msg then
                      "stationary_start".data
                    else "stationary_stop".data
  event_type ++ "_".data ++ nodeId

/-- The history invariant of the spec data model: every node's stored
location history has strictly increasing timestamps. -/
def HistTimesIncreasing (st : StationaryState) : Prop :=
  ∀ id, (st.history id).Chain' (fun a b => a.t < b.t)

/-- A concrete node used to instantiate theorems. -/
def nodeA : NodeInfo := ⟨"!abcd".data, "N".data, some 43, some (-79), some 1000⟩

/-- Whether the fence-loop of `check_node` counts a node at the given
position as inside fence `f`: a valid computed distance within the
radius (boundary inclusive, geofence.py line 53). -/
def fenceInsideB (dist : DistFn) (lat lon : ℚ) (f : GeofenceConfig) : Bool :=
  match dist lat lon f.latitude f.longitude with
  | none => false
  | some d => decide (d ≤ f.radius_km)

/-- A concrete fence used to instantiate theorems. -/
def fenceBase : GeofenceConfig := ⟨"Base".data, 43, -79, 1⟩

/-- A concrete node with an absent latitude. -/
def nodeNoPos : NodeInfo := ⟨"!abcd".data, "N".data, none, some (-79), some 1000⟩

/-- A concrete geofence state: one fence, with `nodeA`-id inside it. -/
def stBase : GeofenceState :=
  ⟨[fenceBase], fun k => if k = "!abcd".data then some ["Base".data] else none⟩

namespace GeofenceModule

/-- The result of running `check_node` on the same node `n` times in a
row (the state after the `n`-th call). -/
def check_node_iter (dist : DistFn) (node : NodeInfo) (st : GeofenceState) :
    ℕ → GeofenceState
  | 0 => st
  | n + 1 => (check_node dist (check_node_iter dist node st n) node).2

end GeofenceModule

/-- Recognizer for enter events of any fence. -/
def GEvent.isEnter : GEvent → Bool
  | .enter _ _ _ _ _ => true
  | _ => false

/-- The geofence-module states reachable from initialization by any
sequence of `check_node` and `reload_geofences` operations. -/
inductive Reachable : GeofenceState → Prop where
  | init (fences : List GeofenceConfig) : Reachable (GeofenceState.init fences)
  | check (dist : DistFn) (node : NodeInfo) (st : GeofenceState) :
      Reachable st → Reachable (GeofenceModule.check_node dist st node).2
  | reload (newFences : List GeofenceConfig) (st : GeofenceState) :
      Reachable st → Reachable (GeofenceModule.reload_geofences newFences st)

/-- Every fence name stored in any node's membership set names a fence
of the current fence list. -/
def MembershipNamesValid (st : GeofenceState) : Prop :=
  ∀ id l, st.nodes_inside id = some l → ∀ fn ∈ l, ∃ f ∈ st.geofences, f.name = fn

/-- The node of Scenario C at tick `k`: identical coordinates every
tick, strictly increasing last-heard stamps (10-second tick). -/
def scenarioC_node (k : ℕ) : NodeInfo :=
  ⟨"!abcd".data, "N".data, some 43, some (-79), some (1000 + 10 * (k : ℚ))⟩

/-- One Scenario C tick of the periodic loop restricted to the
stationary module: `update_node_location` then `check_node_stationary`
with thresholds 300 s and 0.05 km. -/
def scenarioC_step (dist : DistFn) (st : StationaryState) (k : ℕ) :
    (Bool × Option SEvent) × StationaryState :=
  let st1 := StationaryModule.update_node_location st (scenarioC_node k)
    (1000 + 10 * (k : ℚ))
  let r := StationaryModule.check_node_stationary dist 300 (1/20) st1 (scenarioC_node k)
  ((r.1, r.2.1), r.2.2)

/-- State and per-tick notifications after the first `n` Scenario C
ticks. -/
def scenarioC_run (dist : DistFn) : ℕ → StationaryState × List (Option SEvent)
  | 0 => (StationaryState.init, [])
  | n + 1 =>
    ((scenarioC_step dist (scenarioC_run dist n).1 n).2,
     (scenarioC_run dist n).2 ++ [(scenarioC_step dist (scenarioC_run dist n).1 n).1.2])

/-- The stationary state after the first Scenario C tick: a one-sample
history and a clear flag. -/
def scenarioC_state1 : StationaryState :=
  ⟨updateTot (fun _ => []) "!abcd".data [⟨1000, 43, -79⟩], fun _ => false⟩

/-- A concrete number renderer standing in for Python float formatting
in closed instances. -/
def fmtC : Fmt :=
  ⟨fun _ => "0.00".data, fun _ => "0.0".data, fun _ => "0".data, fun _ => "1".data⟩

lemma updateTot_self {α : Type} (m : Str → α) (id : Str) (v : α) :
    updateTot m id v id = v := by
  simp [updateTot]

lemma updateTot_other {α : Type} (m : Str → α) (id k : Str) (v : α) (h : k ≠ id) :
    updateTot m id v k = m k := by
  simp [updateTot, h]

lemma downgrade_flag_self (st : StationaryState) (id : Str) :
    (StationaryModule.downgrade st id).flag id = false := by
  unfold StationaryModule.downgrade
  split
  · simp [updateTot]
  · rename_i h
    simpa using h

lemma downgrade_history (st : StationaryState) (id : Str) :
    (StationaryModule.downgrade st id).history = st.history := by
  unfold StationaryModule.downgrade
  split <;> rfl

/-- Characterization of `send_text_notification` as a single
conditional on the cooldown test and the `force` flag. -/
lemma send_text_notification_eq (ledger : Str → ℚ) (now : ℚ) (key : Str) (force : Bool) :
    NotificationModule.send_text_notification ledger now key force =
      if NOTIFICATION_COOLDOWN < now - ledger key ∨ force = true then
        (true, updateTot ledger key now)
      else (false, ledger) := by
  unfold NotificationModule.send_text_notification NotificationModule.can_notify
  by_cases h : NOTIFICATION_COOLDOWN < now - ledger key
  · cases force <;> simp [h]
  · cases force <;> simp [h]

/-- C2: for every event key, ledger state and call to the notification
throttle, the message is dispatched if and only if the call time minus
the key's last-dispatch stamp strictly exceeds the 60-second cooldown
or `force` is set; on dispatch the ledger entry for the key becomes the
call time, otherwise the ledger is untouched and the message is
dropped; consequently, of two calls with the same key within the
cooldown only the first dispatches, and a later call made more than the
cooldown after the first dispatch dispatches again. -/
theorem claimC2 (ledger : Str → ℚ) (key : Str)
    (now now₂ now₃ : ℚ)
    (h₁ : NOTIFICATION_COOLDOWN < now - ledger key)
    (h₂ : now₂ - now ≤ NOTIFICATION_COOLDOWN)
    (h₃ : NOTIFICATION_COOLDOWN < now₃ - now) :
    (∀ (led : Str → ℚ) (k : Str) (t : ℚ) (force : Bool),
      ((NotificationModule.send_text_notification led t k force).1 = true ↔
        (NOTIFICATION_COOLDOWN < t - led k ∨ force = true)) ∧
      ((NotificationModule.send_text_notification led t k force).1 = true →
        (NotificationModule.send_text_notification led t k force).2 =
          updateTot led k t) ∧
      ((NotificationModule.send_text_notification led t k force).1 = false →
        (NotificationModule.send_text_notification led t k force).2 = led)) ∧
    ((NotificationModule.send_text_notification ledger now key false).1 = true ∧
     (NotificationModule.send_text_notification
        (NotificationModule.send_text_notification ledger now key false).2
        now₂ key false).1 = false ∧
     (NotificationModule.send_text_notification
        (NotificationModule.send_text_notification
          (NotificationModule.send_text_notification ledger now key false).2
          now₂ key false).2
        now₃ key false).1 = true) := by
  have hfirst :
      NotificationModule.send_text_notification ledger now key false =
        (true, updateTot ledger key now) := by
    rw [send_text_notification_eq]
    simp [h₁]
  have hsecond :
      NotificationModule.send_text_notification (updateTot ledger key now) now₂ key false =
        (false, updateTot ledger key now) := by
    rw [send_text_notification_eq]
    have : ¬ NOTIFICATION_COOLDOWN < now₂ - updateTot ledger key now key := by
      rw [updateTot_self]
      linarith
    simp [this]
  refine ⟨?_, ?_⟩
  · intro led k t force
    refine ⟨?_, ?_, ?_⟩ <;>
      · rw [send_text_notification_eq]
        split <;> simp_all
  · refine ⟨by rw [hfirst], ?_, ?_⟩
    · rw [hfirst, hsecond]
    · rw [hfirst, hsecond, send_text_notification_eq]
      have : NOTIFICATION_COOLDOWN < now₃ - updateTot ledger key now key := by
        rw [updateTot_self]
        linarith
      simp [this]

/-- Closed witness for `claimC2` at a concrete ledger, key and call
times. -/
theorem claimC2_witness :
    (∀ (led : Str → ℚ) (k : Str) (t : ℚ) (force : Bool),
      ((NotificationModule.send_text_notification led t k force).1 = true ↔
        (NOTIFICATION_COOLDOWN < t - led k ∨ force = true)) ∧
      ((NotificationModule.send_text_notification led t k force).1 = true →
        (NotificationModule.send_text_notification led t k force).2 =
          updateTot led k t) ∧
      ((NotificationModule.send_text_notification led t k force).1 = false →
        (NotificationModule.send_text_notification led t k force).2 = led)) ∧
    ((NotificationModule.send_text_notification (fun _ => 0) 100 "k".data false).1 = true ∧
     (NotificationModule.send_text_notification
        (NotificationModule.send_text_notification (fun _ => 0) 100 "k".data false).2
        150 "k".data false).1 = false ∧
     (NotificationModule.send_text_notification
        (NotificationModule.send_text_notification
          (NotificationModule.send_text_notification (fun _ => 0) 100 "k".data false).2
          150 "k".data false).2
        200 "k".data false).1 = true) :=
  claimC2 (fun _ => 0) "k".data 100 150 200
    (by norm_num [NOTIFICATION_COOLDOWN])
    (by norm_num [NOTIFICATION_COOLDOWN])
    (by norm_num [NOTIFICATION_COOLDOWN])

/-- C7: a node whose whole location history spans strictly less than
`timeThreshold` seconds — no sample is at least `timeThreshold` older
than the latest sample — is never reported stationary by
`check_node_stationary`, no event is emitted regardless of
displacement, a previously set stationary flag is cleared silently, and
the history is untouched. -/
theorem claimC7 (dist : DistFn) (timeTh distTh : ℚ) (st : StationaryState)
    (node : NodeInfo)
    (hspan : ∀ s ∈ st.history node.node_id, ∀ lastS,
      (st.history node.node_id).getLast? = some lastS → lastS.t - s.t < timeTh) :
    (StationaryModule.check_node_stationary dist timeTh distTh st node).1 = false ∧
    (StationaryModule.check_node_stationary dist timeTh distTh st node).2.1 = none ∧
    (StationaryModule.check_node_stationary dist timeTh distTh st node).2.2.flag
      node.node_id = false ∧
    (StationaryModule.check_node_stationary dist timeTh distTh st node).2.2.history =
      st.history := by
  unfold StationaryModule.check_node_stationary
  by_cases hl : (st.history node.node_id).length < 2
  · rw [if_pos hl]
    exact ⟨rfl, rfl, downgrade_flag_self st node.node_id,
      downgrade_history st node.node_id⟩
  · rw [if_neg hl]
    have hne : st.history node.node_id ≠ [] := by
      intro h
      rw [h] at hl
      simp at hl
    obtain ⟨lastS, hlast⟩ := Option.isSome_iff_exists.mp (List.getLast?_isSome.mpr hne)
    have hfind : (st.history node.node_id).reverse.find?
        (fun s => decide (timeTh ≤ lastS.t - s.t)) = none := by
      rw [List.find?_eq_none]
      intro s hs
      simp only [decide_eq_true_eq]
      have := hspan s (List.mem_reverse.mp hs) lastS hlast
      linarith
    rw [hlast]
    simp only [hfind]
    exact ⟨trivial, trivial, downgrade_flag_self st node.node_id,
      downgrade_history st node.node_id⟩

/-- Closed witness for `claimC7`: a two-sample history spanning 100
seconds against a 300-second threshold, with the flag previously set. -/
theorem claimC7_witness :
    (StationaryModule.check_node_stationary (fun _ _ _ _ => some 0) 300 (1/20)
      ⟨fun _ => [⟨1000, 43, -79⟩, ⟨1100, 43, -79⟩], fun _ => true⟩
      ⟨"!abcd".data, "N".data, some 43, some (-79), some 1100⟩).1 = false ∧
    (StationaryModule.check_node_stationary (fun _ _ _ _ => some 0) 300 (1/20)
      ⟨fun _ => [⟨1000, 43, -79⟩, ⟨1100, 43, -79⟩], fun _ => true⟩
      ⟨"!abcd".data, "N".data, some 43, some (-79), some 1100⟩).2.1 = none ∧
    (StationaryModule.check_node_stationary (fun _ _ _ _ => some 0) 300 (1/20)
      ⟨fun _ => [⟨1000, 43, -79⟩, ⟨1100, 43, -79⟩], fun _ => true⟩
      ⟨"!abcd".data, "N".data, some 43, some (-79), some 1100⟩).2.2.flag
      "!abcd".data = false ∧
    (StationaryModule.check_node_stationary (fun _ _ _ _ => some 0) 300 (1/20)
      ⟨fun _ => [⟨1000, 43, -79⟩, ⟨1100, 43, -79⟩], fun _ => true⟩
      ⟨"!abcd".data, "N".data, some 43, some (-79), some 1100⟩).2.2.history =
      (fun _ => [⟨1000, 43, -79⟩, ⟨1100, 43, -79⟩]) :=
  claimC7 (fun _ _ _ _ => some 0) 300 (1/20)
    ⟨fun _ => [⟨1000, 43, -79⟩, ⟨1100, 43, -79⟩], fun _ => true⟩
    ⟨"!abcd".data, "N".data, some 43, some (-79), some 1100⟩
    (by
      intro s hs lastS hlast
      simp only [List.getLast?] at hlast
      simp at hs hlast
      rcases hs with h | h <;> rw [h] <;> rw [← hlast] <;> norm_num)

lemma chain'_drop {α : Type} {R : α → α → Prop} :
    ∀ (n : ℕ) (l : List α), l.Chain' R → (l.drop n).Chain' R
  | 0, _, h => h
  | _ + 1, [], _ => List.chain'_nil
  | n + 1, _ :: l, h => chain'_drop n l h.tail

lemma chain'_appendMaxlen (h : List Sample) (s : Sample)
    (hc : h.Chain' (fun a b => a.t < b.t))
    (hlast : ∀ lastS, h.getLast? = some lastS → lastS.t < s.t) :
    (appendMaxlen h s).Chain' (fun a b => a.t < b.t) := by
  unfold appendMaxlen
  apply chain'_drop
  rw [List.chain'_append]
  refine ⟨hc, List.chain'_singleton s, ?_⟩
  intro x hx y hy
  simp only [List.head?_cons, Option.mem_def, Option.some.injEq] at hy
  exact hy ▸ hlast x hx

lemma check_node_stationary_history (dist : DistFn) (timeTh distTh : ℚ)
    (st : StationaryState) (node : NodeInfo) :
    (StationaryModule.check_node_stationary dist timeTh distTh st node).2.2.history =
      st.history := by
  unfold StationaryModule.check_node_stationary
  dsimp only
  split
  · exact downgrade_history st node.node_id
  · split
    · exact downgrade_history st node.node_id
    · split
      · exact downgrade_history st node.node_id
      · split
        · exact downgrade_history st node.node_id
        · split
          · split
            · rfl
            · rfl
          · split
            · rfl
            · rfl

lemma update_node_location_no_pos (st : StationaryState) (node : NodeInfo) (now : ℚ)
    (h : node.latitude = none ∨ node.longitude = none) :
    StationaryModule.update_node_location st node now = st := by
  unfold StationaryModule.update_node_location
  rcases h with h | h
  · rw [h]
  · rw [h]
    cases node.latitude <;> rfl

lemma update_node_location_skip (st : StationaryState) (node : NodeInfo) (now : ℚ)
    (lat lon : ℚ) (hlat : node.latitude = some lat) (hlon : node.longitude = some lon)
    (lastS : Sample) (hlast : (st.history node.node_id).getLast? = some lastS)
    (hcond : ¬(lastS.t < effTimestamp node now ∧ (lat ≠ lastS.lat ∨ lon ≠ lastS.lon))) :
    StationaryModule.update_node_location st node now = st := by
  unfold StationaryModule.update_node_location
  rw [hlat, hlon]
  dsimp only
  rw [hlast]
  dsimp only
  rw [if_neg hcond]

lemma update_node_location_appends (st : StationaryState) (node : NodeInfo) (now : ℚ)
    (lat lon : ℚ) (hlat : node.latitude = some lat) (hlon : node.longitude = some lon)
    (hcase : st.history node.node_id = [] ∨
      (∃ lastS, (st.history node.node_id).getLast? = some lastS ∧
        lastS.t < effTimestamp node now ∧ (lat ≠ lastS.lat ∨ lon ≠ lastS.lon))) :
    (StationaryModule.update_node_location st node now).history =
      updateTot st.history node.node_id
        (appendMaxlen (st.history node.node_id) ⟨effTimestamp node now, lat, lon⟩) := by
  unfold StationaryModule.update_node_location
  rw [hlat, hlon]
  dsimp only
  rcases hcase with hemp | ⟨lastS, hlast, ht, hcoord⟩
  · have hnone : (st.history node.node_id).getLast? = none := by
      rw [hemp]
      rfl
    rw [hnone]
  · rw [hlast]
    dsimp only
    rw [if_pos ⟨ht, hcoord⟩]

lemma update_node_location_char (st : StationaryState) (node : NodeInfo) (now : ℚ)
    (k : Str) :
    (StationaryModule.update_node_location st node now).history k = st.history k ∨
    (k = node.node_id ∧ ∃ lat lon, node.latitude = some lat ∧
      node.longitude = some lon ∧
      (StationaryModule.update_node_location st node now).history k =
        appendMaxlen (st.history k) ⟨effTimestamp node now, lat, lon⟩ ∧
      ∀ lastS, (st.history k).getLast? = some lastS →
        lastS.t < effTimestamp node now) := by
  cases hlat : node.latitude with
  | none => left; rw [update_node_location_no_pos st node now (Or.inl hlat)]
  | some lat =>
    cases hlon : node.longitude with
    | none => left; rw [update_node_location_no_pos st node now (Or.inr hlon)]
    | some lon =>
      by_cases hid : k = node.node_id
      · subst hid
        cases hlast : (st.history node.node_id).getLast? with
        | none =>
          right
          have hemp : st.history node.node_id = [] := by
            cases hh : st.history node.node_id with
            | nil => rfl
            | cons a l =>
              rw [hh] at hlast
              simp at hlast
          refine ⟨rfl, lat, lon, rfl, rfl, ?_, ?_⟩
          · rw [update_node_location_appends st node now lat lon hlat hlon (Or.inl hemp)]
            exact updateTot_self _ _ _
          · intro lastS h
            cases h
        | some lastS =>
          by_cases hcond : lastS.t < effTimestamp node now ∧
              (lat ≠ lastS.lat ∨ lon ≠ lastS.lon)
          · right
            refine ⟨rfl, lat, lon, rfl, rfl, ?_, ?_⟩
            · rw [update_node_location_appends st node now lat lon hlat hlon
                (Or.inr ⟨lastS, hlast, hcond⟩)]
              exact updateTot_self _ _ _
            · intro lastS' h
              cases h
              exact hcond.1
          · left
            rw [update_node_location_skip st node now lat lon hlat hlon lastS hlast hcond]
      · left
        unfold StationaryModule.update_node_location
        rw [hlat, hlon]
        dsimp only
        cases (st.history node.node_id).getLast? with
        | none => exact updateTot_other _ _ _ _ hid
        | some lastS =>
          dsimp only
          split
          · exact updateTot_other _ _ _ _ hid
          · rfl

/-- C6: a sample is appended to a node's history only when the node has
a valid position and either the history is empty or the sample's
timestamp is strictly above the last stored one and its coordinates
differ from the last stored sample; in every other case the update is a
no-op on the whole state.  Consequently strictly increasing timestamps
are an invariant of every history, preserved by `update_node_location`,
`check_node_stationary` and `cleanup_stale_nodes`. -/
theorem claimC6 (dist : DistFn) (timeTh distTh now now₂ stale : ℚ)
    (st : StationaryState) (node : NodeInfo)
    (hinc : HistTimesIncreasing st) :
    ((node.latitude = none ∨ node.longitude = none) →
      StationaryModule.update_node_location st node now = st) ∧
    (∀ lat lon, node.latitude = some lat → node.longitude = some lon →
      ∀ lastS, (st.history node.node_id).getLast? = some lastS →
      ¬(lastS.t < effTimestamp node now ∧ (lat ≠ lastS.lat ∨ lon ≠ lastS.lon)) →
      StationaryModule.update_node_location st node now = st) ∧
    (∀ lat lon, node.latitude = some lat → node.longitude = some lon →
      (st.history node.node_id = [] ∨
        (∃ lastS, (st.history node.node_id).getLast? = some lastS ∧
          lastS.t < effTimestamp node now ∧ (lat ≠ lastS.lat ∨ lon ≠ lastS.lon))) →
      (StationaryModule.update_node_location st node now).history node.node_id =
        appendMaxlen (st.history node.node_id) ⟨effTimestamp node now, lat, lon⟩ ∧
      ∀ k, k ≠ node.node_id →
        (StationaryModule.update_node_location st node now).history k =
          st.history k) ∧
    HistTimesIncreasing (StationaryModule.update_node_location st node now) ∧
    HistTimesIncreasing
      (StationaryModule.check_node_stationary dist timeTh distTh st node).2.2 ∧
    HistTimesIncreasing (StationaryModule.cleanup_stale_nodes st now₂ stale) := by
  refine ⟨?_, ?_, ?_, ?_, ?_, ?_⟩
  · exact update_node_location_no_pos st node now
  · exact fun lat lon hlat hlon => update_node_location_skip st node now lat lon hlat hlon
  · intro lat lon hlat hlon hcase
    rw [update_node_location_appends st node now lat lon hlat hlon hcase]
    exact ⟨updateTot_self _ _ _, fun k hk => updateTot_other _ _ _ _ hk⟩
  · intro id
    rcases update_node_location_char st node now id with h | ⟨_, lat, lon, _, _, heq, hlt⟩
    · rw [h]
      exact hinc id
    · rw [heq]
      exact chain'_appendMaxlen _ _ (hinc id) hlt
  · intro id
    rw [check_node_stationary_history]
    exact hinc id
  · intro id
    unfold StationaryModule.cleanup_stale_nodes
    dsimp only
    split
    · exact List.chain'_nil
    · exact hinc id

/-- Closed witness for `claimC6` at the empty initial state and a
concrete node. -/
theorem claimC6_witness :
    HistTimesIncreasing StationaryState.init ∧
    (((nodeA.latitude = none ∨ nodeA.longitude = none) →
      StationaryModule.update_node_location StationaryState.init nodeA 5 =
        StationaryState.init) ∧
    (∀ lat lon, nodeA.latitude = some lat → nodeA.longitude = some lon →
      ∀ lastS, (StationaryState.init.history nodeA.node_id).getLast? = some lastS →
      ¬(lastS.t < effTimestamp nodeA 5 ∧ (lat ≠ lastS.lat ∨ lon ≠ lastS.lon)) →
      StationaryModule.update_node_location StationaryState.init nodeA 5 =
        StationaryState.init) ∧
    (∀ lat lon, nodeA.latitude = some lat → nodeA.longitude = some lon →
      (StationaryState.init.history nodeA.node_id = [] ∨
        (∃ lastS, (StationaryState.init.history nodeA.node_id).getLast? = some lastS ∧
          lastS.t < effTimestamp nodeA 5 ∧ (lat ≠ lastS.lat ∨ lon ≠ lastS.lon))) →
      (StationaryModule.update_node_location StationaryState.init nodeA 5).history
          nodeA.node_id =
        appendMaxlen (StationaryState.init.history nodeA.node_id)
          ⟨effTimestamp nodeA 5, lat, lon⟩ ∧
      ∀ k, k ≠ nodeA.node_id →
        (StationaryModule.update_node_location StationaryState.init nodeA 5).history k =
          StationaryState.init.history k) ∧
    HistTimesIncreasing
      (StationaryModule.update_node_location StationaryState.init nodeA 5) ∧
    HistTimesIncreasing
      (StationaryModule.check_node_stationary (fun _ _ _ _ => none) 300 (1/20)
        StationaryState.init nodeA).2.2 ∧
    HistTimesIncreasing
      (StationaryModule.cleanup_stale_nodes StationaryState.init 6 7)) :=
  ⟨fun _ => List.chain'_nil,
   claimC6 (fun _ _ _ _ => none) 300 (1/20) 5 6 7 StationaryState.init nodeA
     (fun _ => List.chain'_nil)⟩

lemma countP_beq_of_nodup {α : Type} [BEq α] [LawfulBEq α] (l : List α)
    (hnd : l.Nodup) (a : α) :
    l.countP (fun x => x == a) = if a ∈ l then 1 else 0 := by
  induction l with
  | nil => simp
  | cons b l ih =>
    rcases List.nodup_cons.mp hnd with ⟨hb, hl⟩
    by_cases hab : b = a
    · subst hab
      simp [List.countP_cons, ih hl, hb]
    · have hmem : (a ∈ b :: l) ↔ a ∈ l := by
        simp [List.mem_cons]
        intro h
        exact absurd h.symm hab
      simp [List.countP_cons, ih hl, hab, hmem]

lemma updateKey_self {α : Type} (m : Str → Option α) (id : Str) (v : Option α) :
    updateKey m id v id = v := by
  simp [updateKey]

lemma updateKey_other {α : Type} (m : Str → Option α) (id k : Str) (v : Option α)
    (h : k ≠ id) : updateKey m id v k = m k := by
  simp [updateKey, h]

lemma check_node_no_pos (dist : DistFn) (st : GeofenceState) (node : NodeInfo)
    (hpos : node.latitude = none ∨ node.longitude = none) :
    GeofenceModule.check_node dist st node =
      (match st.nodes_inside node.node_id with
       | some prev =>
         (prev.map fun fn => GEvent.exitUnknown (nodeDisplayName node) node.node_id fn,
          { st with nodes_inside := updateKey st.nodes_inside node.node_id none })
       | none => ([], st)) := by
  unfold GeofenceModule.check_node
  rcases hpos with h | h
  · rw [h]
  · rw [h]
    cases node.latitude <;> rfl

/-- C3: when a node's position is absent, `check_node` emits exactly one
unknown-position exit per fence the node was previously inside, removes
the node's membership entry entirely, emits nothing when the node was
inside no fence, and its outcome does not depend on the distance
function at all (the early return precedes every distance evaluation). -/
theorem claimC3 (dist dist' : DistFn) (st : GeofenceState) (node : NodeInfo)
    (hpos : node.latitude = none ∨ node.longitude = none) :
    (∀ prev, st.nodes_inside node.node_id = some prev →
      (GeofenceModule.check_node dist st node).1 =
        prev.map (fun fn => GEvent.exitUnknown (nodeDisplayName node) node.node_id fn) ∧
      (prev.Nodup → ∀ fn,
        (GeofenceModule.check_node dist st node).1.countP (GEvent.isExitFor fn) =
          if fn ∈ prev then 1 else 0)) ∧
    (GeofenceModule.check_node dist st node).2.nodes_inside node.node_id = none ∧
    (st.nodes_inside node.node_id = none →
      (GeofenceModule.check_node dist st node).1 = []) ∧
    GeofenceModule.check_node dist st node = GeofenceModule.check_node dist' st node := by
  have hred : ∀ (d : DistFn), GeofenceModule.check_node d st node =
      (match st.nodes_inside node.node_id with
       | some prev =>
         (prev.map fun fn => GEvent.exitUnknown (nodeDisplayName node) node.node_id fn,
          { st with nodes_inside := updateKey st.nodes_inside node.node_id none })
       | none => ([], st)) :=
    fun d => check_node_no_pos d st node hpos
  refine ⟨?_, ?_, ?_, ?_⟩
  · intro prev hprev
    rw [hred dist, hprev]
    refine ⟨rfl, ?_⟩
    intro hnd fn
    dsimp only
    rw [List.countP_map]
    have hfun : (GEvent.isExitFor fn ∘ fun fn' =>
        GEvent.exitUnknown (nodeDisplayName node) node.node_id fn') =
        fun x => x == fn := by
      funext x
      simp [GEvent.isExitFor, Function.comp]
    rw [hfun]
    exact countP_beq_of_nodup prev hnd fn
  · rw [hred dist]
    cases hprev : st.nodes_inside node.node_id with
    | none => exact hprev
    | some prev => exact updateKey_self st.nodes_inside node.node_id none
  · intro h
    rw [hred dist, h]
  · rw [hred dist, hred dist']

/-- Closed witness for `claimC3` at a concrete state and position-less
node. -/
theorem claimC3_witness :
    (nodeNoPos.latitude = none ∨ nodeNoPos.longitude = none) ∧
    ((∀ prev, stBase.nodes_inside nodeNoPos.node_id = some prev →
      (GeofenceModule.check_node (fun _ _ _ _ => some 0) stBase nodeNoPos).1 =
        prev.map (fun fn =>
          GEvent.exitUnknown (nodeDisplayName nodeNoPos) nodeNoPos.node_id fn) ∧
      (prev.Nodup → ∀ fn,
        (GeofenceModule.check_node (fun _ _ _ _ => some 0) stBase nodeNoPos).1.countP
            (GEvent.isExitFor fn) =
          if fn ∈ prev then 1 else 0)) ∧
    (GeofenceModule.check_node (fun _ _ _ _ => some 0) stBase nodeNoPos).2.nodes_inside
      nodeNoPos.node_id = none ∧
    (stBase.nodes_inside nodeNoPos.node_id = none →
      (GeofenceModule.check_node (fun _ _ _ _ => some 0) stBase nodeNoPos).1 = []) ∧
    GeofenceModule.check_node (fun _ _ _ _ => some 0) stBase nodeNoPos =
      GeofenceModule.check_node (fun _ _ _ _ => none) stBase nodeNoPos) :=
  ⟨Or.inl rfl,
   claimC3 (fun _ _ _ _ => some 0) (fun _ _ _ _ => none) stBase nodeNoPos (Or.inl rfl)⟩

lemma mem_insideAfter (dist : DistFn) (lat lon : ℚ) (fn : Str) :
    ∀ (fences : List GeofenceConfig) (acc : List Str),
    fn ∈ GeofenceModule.insideAfter dist lat lon fences acc ↔
      fn ∈ acc ∨ ∃ f ∈ fences, f.name = fn ∧ fenceInsideB dist lat lon f = true := by
  intro fences
  induction fences with
  | nil => intro acc; simp [GeofenceModule.insideAfter]
  | cons f rest ih =>
    intro acc
    rw [GeofenceModule.insideAfter]
    cases hd : dist lat lon f.latitude f.longitude with
    | none =>
      have hf : fenceInsideB dist lat lon f = false := by
        simp [fenceInsideB, hd]
      rw [ih]
      constructor
      · rintro (h | ⟨g, hg, h1, h2⟩)
        · exact Or.inl h
        · exact Or.inr ⟨g, List.mem_cons_of_mem f hg, h1, h2⟩
      · rintro (h | ⟨g, hg, h1, h2⟩)
        · exact Or.inl h
        · rcases List.mem_cons.mp hg with rfl | hg'
          · rw [hf] at h2; cases h2
          · exact Or.inr ⟨g, hg', h1, h2⟩
    | some d =>
      dsimp only
      by_cases hle : d ≤ f.radius_km
      · have hf : fenceInsideB dist lat lon f = true := by
          simp [fenceInsideB, hd, hle]
        rw [if_pos hle, ih]
        by_cases hmem : f.name ∈ acc
        · rw [if_pos hmem]
          constructor
          · rintro (h | ⟨g, hg, h1, h2⟩)
            · exact Or.inl h
            · exact Or.inr ⟨g, List.mem_cons_of_mem f hg, h1, h2⟩
          · rintro (h | ⟨g, hg, h1, h2⟩)
            · exact Or.inl h
            · rcases List.mem_cons.mp hg with rfl | hg'
              · rw [← h1]; exact Or.inl hmem
              · exact Or.inr ⟨g, hg', h1, h2⟩
        · rw [if_neg hmem]
          constructor
          · rintro (h | ⟨g, hg, h1, h2⟩)
            · rcases List.mem_append.mp h with h' | h'
              · exact Or.inl h'
              · right
                refine ⟨f, List.mem_cons_self f rest, ?_, hf⟩
                have := List.mem_singleton.mp h'
                exact this.symm
            · exact Or.inr ⟨g, List.mem_cons_of_mem f hg, h1, h2⟩
          · rintro (h | ⟨g, hg, h1, h2⟩)
            · exact Or.inl (List.mem_append.mpr (Or.inl h))
            · rcases List.mem_cons.mp hg with rfl | hg'
              · rw [← h1]
                exact Or.inl (List.mem_append.mpr (Or.inr (List.mem_singleton.mpr rfl)))
              · exact Or.inr ⟨g, hg', h1, h2⟩
      · have hf : fenceInsideB dist lat lon f = false := by
          simp [fenceInsideB, hd, hle]
        rw [if_neg hle, ih]
        constructor
        · rintro (h | ⟨g, hg, h1, h2⟩)
          · exact Or.inl h
          · exact Or.inr ⟨g, List.mem_cons_of_mem f hg, h1, h2⟩
        · rintro (h | ⟨g, hg, h1, h2⟩)
          · exact Or.inl h
          · rcases List.mem_cons.mp hg with rfl | hg'
            · rw [hf] at h2; cases h2
            · exact Or.inr ⟨g, hg', h1, h2⟩

lemma check_node_membership (dist : DistFn) (st : GeofenceState) (node : NodeInfo)
    (lat lon : ℚ) (hlat : node.latitude = some lat) (hlon : node.longitude = some lon) :
    ((GeofenceModule.check_node dist st node).2.nodes_inside node.node_id).getD [] =
      GeofenceModule.insideAfter dist lat lon st.geofences [] := by
  unfold GeofenceModule.check_node
  rw [hlat, hlon]
  dsimp only
  rw [updateKey_self]
  split
  · rename_i hemp
    rw [hemp]
    rfl
  · rfl

/-- C5: membership is boundary inclusive.  A fence whose computed
distance to the node equals its radius exactly is part of the node's
stored membership after `check_node`; and in general, under unique
fence names, a fence with a validly computed distance is in the stored
membership if and only if that distance is at most the radius. -/
theorem claimC5 (dist : DistFn) (st : GeofenceState) (node : NodeInfo)
    (lat lon : ℚ) (f : GeofenceConfig)
    (hlat : node.latitude = some lat) (hlon : node.longitude = some lon)
    (hf : f ∈ st.geofences)
    (hd : dist lat lon f.latitude f.longitude = some f.radius_km) :
    f.name ∈
      ((GeofenceModule.check_node dist st node).2.nodes_inside node.node_id).getD [] ∧
    ((st.geofences.map GeofenceConfig.name).Nodup →
      ∀ g ∈ st.geofences, ∀ d, dist lat lon g.latitude g.longitude = some d →
        (g.name ∈
          ((GeofenceModule.check_node dist st node).2.nodes_inside node.node_id).getD []
          ↔ d ≤ g.radius_km)) := by
  rw [check_node_membership dist st node lat lon hlat hlon]
  constructor
  · rw [mem_insideAfter]
    right
    refine ⟨f, hf, rfl, ?_⟩
    simp [fenceInsideB, hd]
  · intro hnames g hg d hdg
    rw [mem_insideAfter]
    constructor
    · rintro (h | ⟨g', hg', hname, hins⟩)
      · cases h
      · have : g' = g := List.inj_on_of_nodup_map hnames hg' hg hname
        subst this
        rw [fenceInsideB, hdg] at hins
        simpa using hins
    · intro hle
      right
      refine ⟨g, hg, rfl, ?_⟩
      simp [fenceInsideB, hdg, hle]

/-- Closed witness for `claimC5`: `nodeA` sits exactly on the boundary
of the one configured fence (the distance function returns the radius). -/
theorem claimC5_witness :
    nodeA.latitude = some 43 ∧ nodeA.longitude = some (-79) ∧
    fenceBase ∈ (GeofenceState.init [fenceBase]).geofences ∧
    (fun _ _ _ _ => some 1 : DistFn) 43 (-79) fenceBase.latitude fenceBase.longitude =
      some fenceBase.radius_km ∧
    (fenceBase.name ∈
      ((GeofenceModule.check_node (fun _ _ _ _ => some 1) (GeofenceState.init [fenceBase])
        nodeA).2.nodes_inside nodeA.node_id).getD [] ∧
    (((GeofenceState.init [fenceBase]).geofences.map GeofenceConfig.name).Nodup →
      ∀ g ∈ (GeofenceState.init [fenceBase]).geofences, ∀ d,
        (fun _ _ _ _ => some 1 : DistFn) 43 (-79) g.latitude g.longitude = some d →
        (g.name ∈
          ((GeofenceModule.check_node (fun _ _ _ _ => some 1)
            (GeofenceState.init [fenceBase]) nodeA).2.nodes_inside nodeA.node_id).getD []
          ↔ d ≤ g.radius_km))) :=
  ⟨rfl, rfl, List.mem_singleton.mpr rfl, by norm_num [fenceBase],
   claimC5 (fun _ _ _ _ => some 1) (GeofenceState.init [fenceBase]) nodeA 43 (-79)
     fenceBase rfl rfl (List.mem_singleton.mpr rfl) (by norm_num [fenceBase])⟩

lemma countP_enterEvents (dist : DistFn) (nm nodeId : Str) (lat lon : ℚ)
    (prev : List Str) (fn : Str) :
    ∀ fences : List GeofenceConfig,
    (GeofenceModule.enterEvents dist nm nodeId lat lon prev fences).countP
        (GEvent.isEnterFor fn) =
      fences.countP (fun f =>
        fenceInsideB dist lat lon f && decide (f.name ∉ prev) && (f.name == fn)) := by
  intro fences
  induction fences with
  | nil => rfl
  | cons f rest ih =>
    unfold GeofenceModule.enterEvents at ih ⊢
    rw [List.filterMap_cons]
    cases hd : dist lat lon f.latitude f.longitude with
    | none =>
      have hf : fenceInsideB dist lat lon f = false := by
        simp [fenceInsideB, hd]
      dsimp only
      rw [ih, List.countP_cons, hf]
      simp
    | some d =>
      have hf : fenceInsideB dist lat lon f = decide (d ≤ f.radius_km) := by
        simp [fenceInsideB, hd]
      dsimp only
      by_cases hc : d ≤ f.radius_km ∧ f.name ∉ prev
      · rw [if_pos hc, List.countP_cons, ih, List.countP_cons, hf]
        have h1 : decide (d ≤ f.radius_km) = true := by simp [hc.1]
        have h2 : decide (f.name ∉ prev) = true := by simp [hc.2]
        rw [h1, h2]
        simp [GEvent.isEnterFor]
      · rw [if_neg hc]
        dsimp only
        rw [ih, List.countP_cons, hf]
        have hfalse : (decide (d ≤ f.radius_km) && decide (f.name ∉ prev) &&
            (f.name == fn)) = false := by
          by_cases h1 : d ≤ f.radius_km
          · have h2 : ¬ f.name ∉ prev := fun hh => hc ⟨h1, hh⟩
            simp [h2]
          · simp [h1]
        rw [hfalse]
        simp

lemma enterEvents_eq_nil (dist : DistFn) (nm nodeId : Str) (lat lon : ℚ)
    (prev : List Str) (fences : List GeofenceConfig)
    (h : ∀ f ∈ fences, fenceInsideB dist lat lon f = true → f.name ∈ prev) :
    GeofenceModule.enterEvents dist nm nodeId lat lon prev fences = [] := by
  induction fences with
  | nil => rfl
  | cons f rest ih =>
    show List.filterMap _ (f :: rest) = []
    rw [List.filterMap_cons]
    cases hd : dist lat lon f.latitude f.longitude with
    | none =>
      dsimp only
      exact ih fun g hg => h g (List.mem_cons_of_mem f hg)
    | some d =>
      dsimp only
      rw [if_neg]
      · exact ih fun g hg => h g (List.mem_cons_of_mem f hg)
      · rintro ⟨h1, h2⟩
        exact h2 (h f (List.mem_cons_self f rest) (by simp [fenceInsideB, hd, h1]))

lemma countP_isEnterFor_exitEvents (dist : DistFn) (nm nodeId : Str) (lat lon : ℚ)
    (exited : List Str) (fences : List GeofenceConfig) (fn : Str) :
    (GeofenceModule.exitEvents dist nm nodeId lat lon exited fences).countP
      (GEvent.isEnterFor fn) = 0 := by
  rw [List.countP_eq_zero]
  intro e he
  have he' := List.mem_filterMap.mp he
  obtain ⟨a, _, heq⟩ := he'
  rcases Option.map_eq_some'.mp heq with ⟨g, _, hg⟩
  rw [← hg]
  simp [GEvent.isEnterFor]

lemma check_node_state (dist : DistFn) (st : GeofenceState) (node : NodeInfo)
    (lat lon : ℚ) (hlat : node.latitude = some lat) (hlon : node.longitude = some lon) :
    (GeofenceModule.check_node dist st node).2.geofences = st.geofences ∧
    (GeofenceModule.check_node dist st node).2.nodes_inside node.node_id =
      (if GeofenceModule.insideAfter dist lat lon st.geofences [] = [] then none
       else some (GeofenceModule.insideAfter dist lat lon st.geofences [])) := by
  unfold GeofenceModule.check_node
  rw [hlat, hlon]
  dsimp only
  exact ⟨rfl, updateKey_self _ _ _⟩

lemma check_node_events (dist : DistFn) (st : GeofenceState) (node : NodeInfo)
    (lat lon : ℚ) (hlat : node.latitude = some lat) (hlon : node.longitude = some lon) :
    (GeofenceModule.check_node dist st node).1 =
      GeofenceModule.enterEvents dist (nodeDisplayName node) node.node_id lat lon
        ((st.nodes_inside node.node_id).getD []) st.geofences ++
      GeofenceModule.exitEvents dist (nodeDisplayName node) node.node_id lat lon
        (((st.nodes_inside node.node_id).getD []).filter
          (fun fn => fn ∉ GeofenceModule.insideAfter dist lat lon st.geofences []))
        st.geofences := by
  unfold GeofenceModule.check_node
  rw [hlat, hlon]

lemma check_node_stable (dist : DistFn) (st st' : GeofenceState) (node : NodeInfo)
    (lat lon : ℚ) (hlat : node.latitude = some lat) (hlon : node.longitude = some lon)
    (hgeo : st'.geofences = st.geofences)
    (hmem : st'.nodes_inside node.node_id =
      (if GeofenceModule.insideAfter dist lat lon st.geofences [] = [] then none
       else some (GeofenceModule.insideAfter dist lat lon st.geofences []))) :
    (GeofenceModule.check_node dist st' node).1 = [] ∧
    (GeofenceModule.check_node dist st' node).2.geofences = st.geofences ∧
    (GeofenceModule.check_node dist st' node).2.nodes_inside node.node_id =
      (if GeofenceModule.insideAfter dist lat lon st.geofences [] = [] then none
       else some (GeofenceModule.insideAfter dist lat lon st.geofences [])) := by
  have hprev : (st'.nodes_inside node.node_id).getD [] =
      GeofenceModule.insideAfter dist lat lon st.geofences [] := by
    rw [hmem]
    split
    · rename_i hemp
      rw [hemp]
      rfl
    · rfl
  have henters : GeofenceModule.enterEvents dist (nodeDisplayName node) node.node_id
      lat lon ((st'.nodes_inside node.node_id).getD []) st'.geofences = [] := by
    apply enterEvents_eq_nil
    intro f hf hin
    rw [hprev, mem_insideAfter]
    exact Or.inr ⟨f, hgeo ▸ hf, rfl, hin⟩
  have hexited : ((st'.nodes_inside node.node_id).getD []).filter
      (fun fn => fn ∉ GeofenceModule.insideAfter dist lat lon st'.geofences []) = [] := by
    rw [List.filter_eq_nil_iff]
    intro fn hfn
    rw [hprev] at hfn
    rw [hgeo]
    simp only [decide_eq_true_eq, Decidable.not_not]
    exact hfn
  refine ⟨?_, ?_, ?_⟩
  · rw [check_node_events dist st' node lat lon hlat hlon, henters, hexited]
    rfl
  · rw [(check_node_state dist st' node lat lon hlat hlon).1, hgeo]
  · rw [(check_node_state dist st' node lat lon hlat hlon).2, hgeo]

lemma check_node_iter_inv (dist : DistFn) (st : GeofenceState) (node : NodeInfo)
    (lat lon : ℚ) (hlat : node.latitude = some lat) (hlon : node.longitude = some lon) :
    ∀ n, 1 ≤ n →
      (GeofenceModule.check_node_iter dist node st n).geofences = st.geofences ∧
      (GeofenceModule.check_node_iter dist node st n).nodes_inside node.node_id =
        (if GeofenceModule.insideAfter dist lat lon st.geofences [] = [] then none
         else some (GeofenceModule.insideAfter dist lat lon st.geofences [])) := by
  intro n
  induction n with
  | zero => intro h; cases h
  | succ n ih =>
    intro _
    cases n with
    | zero =>
      exact ⟨(check_node_state dist st node lat lon hlat hlon).1,
        (check_node_state dist st node lat lon hlat hlon).2⟩
    | succ m =>
      have hm := ih (Nat.succ_le_succ (Nat.zero_le m))
      have := check_node_stable dist st (GeofenceModule.check_node_iter dist node st (m + 1))
        node lat lon hlat hlon hm.1 hm.2
      exact ⟨this.2.1, this.2.2⟩

/-- C4: for a node with a valid, unchanged position, an Enter event for
each fence it is inside and was not previously inside is emitted exactly
once on the first `check_node` call; the second call emits no events at
all (in particular no Enter and no Exit for any fence), and across any
number of further calls with the node staying put no event is ever
emitted again. -/
theorem claimC4 (dist : DistFn) (st : GeofenceState) (node : NodeInfo)
    (lat lon : ℚ) (hlat : node.latitude = some lat) (hlon : node.longitude = some lon)
    (hnames : (st.geofences.map GeofenceConfig.name).Nodup) :
    (∀ f ∈ st.geofences, fenceInsideB dist lat lon f = true →
      f.name ∉ (st.nodes_inside node.node_id).getD [] →
      (GeofenceModule.check_node dist st node).1.countP (GEvent.isEnterFor f.name) = 1) ∧
    (GeofenceModule.check_node dist
      (GeofenceModule.check_node dist st node).2 node).1 = [] ∧
    (∀ n, 1 ≤ n →
      (GeofenceModule.check_node dist
        (GeofenceModule.check_node_iter dist node st n) node).1 = []) := by
  refine ⟨?_, ?_, ?_⟩
  · intro f hf hin hprev
    rw [check_node_events dist st node lat lon hlat hlon, List.countP_append,
      countP_isEnterFor_exitEvents, countP_enterEvents]
    have hcongr : (st.geofences.countP (fun g =>
        fenceInsideB dist lat lon g && decide (g.name ∉ (st.nodes_inside node.node_id).getD [])
          && (g.name == f.name))) = st.geofences.countP (fun g => g == f) := by
      apply List.countP_congr
      intro g hg
      simp only [Bool.and_eq_true, decide_eq_true_eq, beq_iff_eq]
      constructor
      · rintro ⟨⟨_, _⟩, hname⟩
        exact List.inj_on_of_nodup_map hnames hg hf hname
      · rintro rfl
        exact ⟨⟨hin, hprev⟩, rfl⟩
    rw [hcongr, countP_beq_of_nodup st.geofences (List.Nodup.of_map _ hnames) f,
      if_pos hf]
  · have h1 := check_node_state dist st node lat lon hlat hlon
    exact (check_node_stable dist st (GeofenceModule.check_node dist st node).2 node
      lat lon hlat hlon h1.1 h1.2).1
  · intro n hn
    have hm := check_node_iter_inv dist st node lat lon hlat hlon n hn
    exact (check_node_stable dist st (GeofenceModule.check_node_iter dist node st n)
      node lat lon hlat hlon hm.1 hm.2).1

/-- Closed witness for `claimC4`: `nodeA` inside the single configured
fence, checked repeatedly. -/
theorem claimC4_witness :
    nodeA.latitude = some 43 ∧ nodeA.longitude = some (-79) ∧
    ((GeofenceState.init [fenceBase]).geofences.map GeofenceConfig.name).Nodup ∧
    ((∀ f ∈ (GeofenceState.init [fenceBase]).geofences,
      fenceInsideB (fun _ _ _ _ => some 0) 43 (-79) f = true →
      f.name ∉ ((GeofenceState.init [fenceBase]).nodes_inside nodeA.node_id).getD [] →
      (GeofenceModule.check_node (fun _ _ _ _ => some 0) (GeofenceState.init [fenceBase])
        nodeA).1.countP (GEvent.isEnterFor f.name) = 1) ∧
    (GeofenceModule.check_node (fun _ _ _ _ => some 0)
      (GeofenceModule.check_node (fun _ _ _ _ => some 0) (GeofenceState.init [fenceBase])
        nodeA).2 nodeA).1 = [] ∧
    (∀ n, 1 ≤ n →
      (GeofenceModule.check_node (fun _ _ _ _ => some 0)
        (GeofenceModule.check_node_iter (fun _ _ _ _ => some 0) nodeA
          (GeofenceState.init [fenceBase]) n) nodeA).1 = [])) :=
  ⟨rfl, rfl, by decide,
   claimC4 (fun _ _ _ _ => some 0) (GeofenceState.init [fenceBase]) nodeA 43 (-79)
     rfl rfl (by decide)⟩

lemma mem_enterEvents_isEnter (dist : DistFn) (nm nodeId : Str) (lat lon : ℚ)
    (prev : List Str) (fences : List GeofenceConfig) (e : GEvent)
    (he : e ∈ GeofenceModule.enterEvents dist nm nodeId lat lon prev fences) :
    e.isEnter = true := by
  obtain ⟨f, _, heq⟩ := List.mem_filterMap.mp he
  cases hd : dist lat lon f.latitude f.longitude with
  | none => rw [hd] at heq; cases heq
  | some d =>
    rw [hd] at heq
    dsimp only at heq
    split at heq
    · cases heq
      rfl
    · cases heq

/-- C9: reloading the fence list replaces it wholesale and clears every
node's membership while producing no notification; after a reload every
event the next `check_node` call can produce is an Enter (in particular
no synthetic Exit is ever emitted for the cleared state), and a node
inside a fence of the new list re-triggers an Enter event for it on the
next check. -/
theorem claimC9 (dist : DistFn) (st : GeofenceState)
    (newFences : List GeofenceConfig) (node : NodeInfo) (lat lon : ℚ)
    (f : GeofenceConfig) (d : ℚ)
    (hlat : node.latitude = some lat) (hlon : node.longitude = some lon)
    (hf : f ∈ newFences)
    (hd : dist lat lon f.latitude f.longitude = some d)
    (hle : d ≤ f.radius_km) :
    (GeofenceModule.reload_geofences newFences st).geofences = newFences ∧
    (∀ id, (GeofenceModule.reload_geofences newFences st).nodes_inside id = none) ∧
    (∀ (node' : NodeInfo) (dist' : DistFn),
      ∀ e ∈ (GeofenceModule.check_node dist'
        (GeofenceModule.reload_geofences newFences st) node').1, e.isEnter = true) ∧
    GEvent.enter (nodeDisplayName node) node.node_id f.name d f.radius_km ∈
      (GeofenceModule.check_node dist
        (GeofenceModule.reload_geofences newFences st) node).1 := by
  refine ⟨rfl, fun _ => rfl, ?_, ?_⟩
  · intro node' dist' e he
    cases hlat' : node'.latitude with
    | none =>
      have : (GeofenceModule.check_node dist'
          (GeofenceModule.reload_geofences newFences st) node').1 = [] := by
        unfold GeofenceModule.check_node
        rw [hlat']
        rfl
      rw [this] at he
      cases he
    | some lat' =>
      cases hlon' : node'.longitude with
      | none =>
        have : (GeofenceModule.check_node dist'
            (GeofenceModule.reload_geofences newFences st) node').1 = [] := by
          unfold GeofenceModule.check_node
          rw [hlat', hlon']
          rfl
        rw [this] at he
        cases he
      | some lon' =>
        rw [check_node_events dist' _ node' lat' lon' hlat' hlon'] at he
        rcases List.mem_append.mp he with h | h
        · exact mem_enterEvents_isEnter _ _ _ _ _ _ _ _ h
        · have : ((GeofenceModule.reload_geofences newFences st).nodes_inside
              node'.node_id).getD [] = [] := rfl
          rw [this] at h
          cases h
  · rw [check_node_events dist _ node lat lon hlat hlon]
    apply List.mem_append.mpr
    left
    apply List.mem_filterMap.mpr
    refine ⟨f, hf, ?_⟩
    rw [hd]
    dsimp only
    rw [if_pos]
    exact ⟨hle, List.not_mem_nil f.name⟩

/-- Closed witness for `claimC9`: reloading to the single fence
`fenceBase` from the populated `stBase` state, with `nodeA` inside. -/
theorem claimC9_witness :
    nodeA.latitude = some 43 ∧ nodeA.longitude = some (-79) ∧
    fenceBase ∈ [fenceBase] ∧
    (fun _ _ _ _ => some 0 : DistFn) 43 (-79) fenceBase.latitude fenceBase.longitude =
      some 0 ∧ (0 : ℚ) ≤ fenceBase.radius_km ∧
    ((GeofenceModule.reload_geofences [fenceBase] stBase).geofences = [fenceBase] ∧
    (∀ id, (GeofenceModule.reload_geofences [fenceBase] stBase).nodes_inside id = none) ∧
    (∀ (node' : NodeInfo) (dist' : DistFn),
      ∀ e ∈ (GeofenceModule.check_node dist'
        (GeofenceModule.reload_geofences [fenceBase] stBase) node').1,
        e.isEnter = true) ∧
    GEvent.enter (nodeDisplayName nodeA) nodeA.node_id fenceBase.name 0
        fenceBase.radius_km ∈
      (GeofenceModule.check_node (fun _ _ _ _ => some 0)
        (GeofenceModule.reload_geofences [fenceBase] stBase) nodeA).1) :=
  ⟨rfl, rfl, List.mem_singleton.mpr rfl, rfl, by norm_num [fenceBase],
   claimC9 (fun _ _ _ _ => some 0) stBase [fenceBase] nodeA 43 (-79) fenceBase 0
     rfl rfl (List.mem_singleton.mpr rfl) rfl (by norm_num [fenceBase])⟩

lemma check_node_other (dist : DistFn) (st : GeofenceState) (node : NodeInfo)
    (k : Str) (hk : k ≠ node.node_id) :
    (GeofenceModule.check_node dist st node).2.nodes_inside k = st.nodes_inside k := by
  cases hlat : node.latitude with
  | none =>
    rw [check_node_no_pos dist st node (Or.inl hlat)]
    cases st.nodes_inside node.node_id with
    | none => rfl
    | some prev => exact updateKey_other _ _ _ _ hk
  | some lat =>
    cases hlon : node.longitude with
    | none =>
      rw [check_node_no_pos dist st node (Or.inr hlon)]
      cases st.nodes_inside node.node_id with
      | none => rfl
      | some prev => exact updateKey_other _ _ _ _ hk
    | some lon =>
      unfold GeofenceModule.check_node
      rw [hlat, hlon]
      dsimp only
      exact updateKey_other _ _ _ _ hk

lemma check_node_geofences (dist : DistFn) (st : GeofenceState) (node : NodeInfo) :
    (GeofenceModule.check_node dist st node).2.geofences = st.geofences := by
  cases hlat : node.latitude with
  | none =>
    rw [check_node_no_pos dist st node (Or.inl hlat)]
    cases st.nodes_inside node.node_id <;> rfl
  | some lat =>
    cases hlon : node.longitude with
    | none =>
      rw [check_node_no_pos dist st node (Or.inr hlon)]
      cases st.nodes_inside node.node_id <;> rfl
    | some lon => exact (check_node_state dist st node lat lon hlat hlon).1

lemma length_filterMap_of_isSome {α β : Type} (f : α → Option β) (l : List α)
    (h : ∀ a ∈ l, (f a).isSome = true) : (l.filterMap f).length = l.length := by
  induction l with
  | nil => rfl
  | cons a l ih =>
    rw [List.filterMap_cons]
    cases hfa : f a with
    | none =>
      have := h a (List.mem_cons_self a l)
      rw [hfa] at this
      cases this
    | some b =>
      dsimp only
      rw [List.length_cons, List.length_cons,
        ih fun x hx => h x (List.mem_cons_of_mem a hx)]

lemma reachable_membership_names_valid (st : GeofenceState) (hreach : Reachable st) :
    MembershipNamesValid st := by
  induction hreach with
  | init fences => intro id l h fn hfn; cases h
  | reload newFences st' _ _ => intro id l h fn hfn; cases h
  | check dist node st' _ ih =>
    intro id l h fn hfn
    by_cases hid : id = node.node_id
    · subst hid
      cases hlat : node.latitude with
      | none =>
        rw [check_node_no_pos dist st' node (Or.inl hlat)] at h
        cases hprev : st'.nodes_inside node.node_id with
        | none => rw [hprev] at h; dsimp only at h; rw [hprev] at h; cases h
        | some prev =>
          rw [hprev] at h
          dsimp only at h
          rw [updateKey_self] at h
          cases h
      | some lat =>
        cases hlon : node.longitude with
        | none =>
          rw [check_node_no_pos dist st' node (Or.inr hlon)] at h
          cases hprev : st'.nodes_inside node.node_id with
          | none => rw [hprev] at h; dsimp only at h; rw [hprev] at h; cases h
          | some prev =>
            rw [hprev] at h
            dsimp only at h
            rw [updateKey_self] at h
            cases h
        | some lon =>
          rw [(check_node_state dist st' node lat lon hlat hlon).2] at h
          rw [check_node_geofences]
          split at h
          · cases h
          · cases h
            rw [mem_insideAfter] at hfn
            rcases hfn with hfn | ⟨f, hf, hname, _⟩
            · cases hfn
            · exact ⟨f, hf, hname⟩
    · rw [check_node_other dist st' node id hid] at h
      rw [check_node_geofences]
      exact ih id l h fn hfn

/-- C10: starting from any initial or reloaded state, every fence name
stored in any node's membership set names a fence of the current fence
list; hence in the exit loop of `check_node`, the by-name lookup of an
exited fence always succeeds — the state-inconsistency fallback branch
(which emits nothing) is unreachable, and one exit notification is
emitted per exited fence. -/
theorem claimC10 (st : GeofenceState) (hreach : Reachable st) :
    MembershipNamesValid st ∧
    (∀ (dist : DistFn) (node : NodeInfo) (lat lon : ℚ),
      node.latitude = some lat → node.longitude = some lon →
      ∀ fn ∈ ((st.nodes_inside node.node_id).getD []).filter
        (fun fn => fn ∉ GeofenceModule.insideAfter dist lat lon st.geofences []),
      (st.geofences.find? (fun f => f.name == fn)).isSome = true) ∧
    (∀ (dist : DistFn) (node : NodeInfo) (lat lon : ℚ),
      node.latitude = some lat → node.longitude = some lon →
      (GeofenceModule.exitEvents dist (nodeDisplayName node) node.node_id lat lon
        (((st.nodes_inside node.node_id).getD []).filter
          (fun fn => fn ∉ GeofenceModule.insideAfter dist lat lon st.geofences []))
        st.geofences).length =
      (((st.nodes_inside node.node_id).getD []).filter
        (fun fn => fn ∉ GeofenceModule.insideAfter dist lat lon st.geofences [])).length) := by
  have hinv := reachable_membership_names_valid st hreach
  have hfind : ∀ (dist : DistFn) (node : NodeInfo) (lat lon : ℚ),
      node.latitude = some lat → node.longitude = some lon →
      ∀ fn ∈ ((st.nodes_inside node.node_id).getD []).filter
        (fun fn => fn ∉ GeofenceModule.insideAfter dist lat lon st.geofences []),
      (st.geofences.find? (fun f => f.name == fn)).isSome = true := by
    intro dist node lat lon _ _ fn hfn
    have hmem := (List.mem_filter.mp hfn).1
    cases hprev : st.nodes_inside node.node_id with
    | none =>
      rw [hprev] at hmem
      cases hmem
    | some l =>
      rw [hprev] at hmem
      obtain ⟨f, hf, hname⟩ := hinv node.node_id l hprev fn hmem
      rw [List.find?_isSome]
      exact ⟨f, hf, by simp [hname]⟩
  refine ⟨hinv, hfind, ?_⟩
  intro dist node lat lon hlat hlon
  apply length_filterMap_of_isSome
  intro fn hfn
  have := hfind dist node lat lon hlat hlon fn hfn
  cases hf : List.find? (fun f => f.name == fn) st.geofences with
  | none => rw [hf] at this; cases this
  | some g => rfl

/-- Closed witness for `claimC10` at a state reached by one check from
an initial state (so that a membership entry actually exists). -/
theorem claimC10_witness :
    Reachable (GeofenceModule.check_node (fun _ _ _ _ => some 0)
      (GeofenceState.init [fenceBase]) nodeA).2 ∧
    (MembershipNamesValid (GeofenceModule.check_node (fun _ _ _ _ => some 0)
      (GeofenceState.init [fenceBase]) nodeA).2 ∧
    (∀ (dist : DistFn) (node : NodeInfo) (lat lon : ℚ),
      node.latitude = some lat → node.longitude = some lon →
      ∀ fn ∈ (((GeofenceModule.check_node (fun _ _ _ _ => some 0)
          (GeofenceState.init [fenceBase]) nodeA).2.nodes_inside node.node_id).getD
          []).filter
        (fun fn => fn ∉ GeofenceModule.insideAfter dist lat lon
          (GeofenceModule.check_node (fun _ _ _ _ => some 0)
            (GeofenceState.init [fenceBase]) nodeA).2.geofences []),
      ((GeofenceModule.check_node (fun _ _ _ _ => some 0)
        (GeofenceState.init [fenceBase]) nodeA).2.geofences.find?
          (fun f => f.name == fn)).isSome = true) ∧
    (∀ (dist : DistFn) (node : NodeInfo) (lat lon : ℚ),
      node.latitude = some lat → node.longitude = some lon →
      (GeofenceModule.exitEvents dist (nodeDisplayName node) node.node_id lat lon
        ((((GeofenceModule.check_node (fun _ _ _ _ => some 0)
            (GeofenceState.init [fenceBase]) nodeA).2.nodes_inside node.node_id).getD
            []).filter
          (fun fn => fn ∉ GeofenceModule.insideAfter dist lat lon
            (GeofenceModule.check_node (fun _ _ _ _ => some 0)
              (GeofenceState.init [fenceBase]) nodeA).2.geofences []))
        (GeofenceModule.check_node (fun _ _ _ _ => some 0)
          (GeofenceState.init [fenceBase]) nodeA).2.geofences).length =
      ((((GeofenceModule.check_node (fun _ _ _ _ => some 0)
          (GeofenceState.init [fenceBase]) nodeA).2.nodes_inside node.node_id).getD
          []).filter
        (fun fn => fn ∉ GeofenceModule.insideAfter dist lat lon
          (GeofenceModule.check_node (fun _ _ _ _ => some 0)
            (GeofenceState.init [fenceBase]) nodeA).2.geofences [])).length)) :=
  ⟨Reachable.check (fun _ _ _ _ => some 0) nodeA (GeofenceState.init [fenceBase])
     (Reachable.init [fenceBase]),
   claimC10 (GeofenceModule.check_node (fun _ _ _ _ => some 0)
       (GeofenceState.init [fenceBase]) nodeA).2
     (Reachable.check (fun _ _ _ _ => some 0) nodeA (GeofenceState.init [fenceBase])
       (Reachable.init [fenceBase]))⟩

lemma check_short_history (dist : DistFn) (tTh dTh : ℚ) (st : StationaryState)
    (node : NodeInfo) (hlen : (st.history node.node_id).length < 2)
    (hflag : st.flag node.node_id = false) :
    StationaryModule.check_node_stationary dist tTh dTh st node = (false, none, st) := by
  unfold StationaryModule.check_node_stationary
  dsimp only
  rw [if_pos hlen]
  unfold StationaryModule.downgrade
  rw [hflag]
  rfl

lemma scenarioC_step_init (dist : DistFn) :
    scenarioC_step dist StationaryState.init 0 = ((false, none), scenarioC_state1) := by
  unfold scenarioC_step
  have hupd : StationaryModule.update_node_location StationaryState.init
      (scenarioC_node 0) (1000 + 10 * ((0 : ℕ) : ℚ)) = scenarioC_state1 := by
    unfold StationaryModule.update_node_location scenarioC_node StationaryState.init
    dsimp only
    unfold scenarioC_state1
    have : effTimestamp ⟨"!abcd".data, "N".data, some 43, some (-79),
        some (1000 + 10 * ((0 : ℕ) : ℚ))⟩ (1000 + 10 * ((0 : ℕ) : ℚ)) = 1000 := by
      unfold effTimestamp
      norm_num
    rw [this]
    rfl
  rw [hupd]
  dsimp only
  rw [check_short_history dist 300 (1/20) scenarioC_state1 (scenarioC_node 0)
    (by decide) rfl]

lemma scenarioC_step_stable (dist : DistFn) (k : ℕ) :
    scenarioC_step dist scenarioC_state1 k = ((false, none), scenarioC_state1) := by
  unfold scenarioC_step
  have hupd : StationaryModule.update_node_location scenarioC_state1
      (scenarioC_node k) (1000 + 10 * (k : ℚ)) = scenarioC_state1 := by
    apply update_node_location_skip scenarioC_state1 (scenarioC_node k)
      (1000 + 10 * (k : ℚ)) 43 (-79) rfl rfl ⟨1000, 43, -79⟩ rfl
    rintro ⟨-, h | h⟩ <;> exact h rfl
  rw [hupd]
  dsimp only
  have hlen : (scenarioC_state1.history (scenarioC_node k).node_id).length < 2 := by
    show (scenarioC_state1.history "!abcd".data).length < 2
    decide
  rw [check_short_history dist 300 (1/20) scenarioC_state1 (scenarioC_node k) hlen rfl]

/-- C1 (refuting Scenario C): because `update_node_location` appends a
sample only when the coordinates differ from the last stored sample, a
node reporting identical coordinates every tick keeps a one-sample
history forever, so `check_node_stationary` returns via its
fewer-than-two-samples branch at every tick: after any number of ticks
(in particular the 41 ticks covering 0..400 s against the 300 s
threshold) no Stationary-started event has been emitted and none ever
will be. -/
theorem claimC1 (dist : DistFn) (n : ℕ) :
    (scenarioC_run dist n).1 =
      (if n = 0 then StationaryState.init else scenarioC_state1) ∧
    ((scenarioC_run dist n).2.all fun e => e = none) = true ∧
    (scenarioC_run dist n).2.length = n := by
  induction n with
  | zero => exact ⟨rfl, rfl, rfl⟩
  | succ n ih =>
    obtain ⟨hst, hall, hlen⟩ := ih
    have hstep : scenarioC_step dist (scenarioC_run dist n).1 n =
        ((false, none), scenarioC_state1) := by
      rw [hst]
      by_cases hn : n = 0
      · subst hn
        rw [if_pos rfl]
        exact scenarioC_step_init dist
      · rw [if_neg hn]
        exact scenarioC_step_stable dist n
    refine ⟨?_, ?_, ?_⟩
    · show (scenarioC_step dist (scenarioC_run dist n).1 n).2 = _
      rw [hstep, if_neg (Nat.succ_ne_zero n)]
    · show ((scenarioC_run dist n).2 ++
        [(scenarioC_step dist (scenarioC_run dist n).1 n).1.2]).all _ = true
      rw [hstep, List.all_append, hall]
      rfl
    · show ((scenarioC_run dist n).2 ++
        [(scenarioC_step dist (scenarioC_run dist n).1 n).1.2]).length = n + 1
      rw [List.length_append, hlen]
      rfl

lemma splitOnQuote_ne_nil (l : Str) : splitOnQuote l ≠ [] := by
  cases l with
  | nil => simp [splitOnQuote]
  | cons c cs =>
    unfold splitOnQuote
    split
    · simp
    · split <;> simp

lemma splitOnQuote_append_noquote (a : Str) (rest : Str) (ha : quoteChar ∉ a) :
    splitOnQuote (a ++ quoteChar :: rest) = a :: splitOnQuote rest := by
  induction a with
  | nil =>
    show splitOnQuote (quoteChar :: rest) = [] :: splitOnQuote rest
    cases h : splitOnQuote rest with
    | nil => exact absurd h (splitOnQuote_ne_nil rest)
    | cons p ps =>
      conv_lhs => rw [splitOnQuote]
      rw [h]
      simp
  | cons c a ih =>
    have hc : c ≠ quoteChar := fun h => ha (h ▸ List.mem_cons_self c a)
    have ha' : quoteChar ∉ a := fun h => ha (List.mem_cons_of_mem c h)
    show splitOnQuote (c :: (a ++ quoteChar :: rest)) = (c :: a) :: splitOnQuote rest
    conv_lhs => rw [splitOnQuote]
    rw [ih ha']
    simp [hc]

lemma splitOnQuote_wrap (a fn b : Str) (ha : quoteChar ∉ a) (hfn : quoteChar ∉ fn) :
    splitOnQuote (a ++ [quoteChar] ++ fn ++ [quoteChar] ++ b) =
      a :: fn :: splitOnQuote b := by
  have h1 : a ++ [quoteChar] ++ fn ++ [quoteChar] ++ b =
      a ++ quoteChar :: (fn ++ quoteChar :: b) := by
    simp [List.append_assoc]
  rw [h1, splitOnQuote_append_noquote a _ ha, splitOnQuote_append_noquote fn b hfn]

lemma geofence_event_key_eq (nodeId : Str) (i : ℕ) (msg pre fn post : Str) (kd : Bool)
    (hmsg : msg = pre ++ [quoteChar] ++ fn ++ [quoteChar] ++ post)
    (hpre : quoteChar ∉ pre) (hfn : quoteChar ∉ fn)
    (hkind : containsSub "entered".data msg = kd) :
    geofence_event_key nodeId i msg =
      (if kd then "geofence_enter".data else "geofence_exit".data) ++
        "_".data ++ nodeId ++ "_".data ++ fn := by
  unfold geofence_event_key
  dsimp only
  rw [hkind, hmsg, splitOnQuote_wrap pre fn post hpre hfn]
  have hlen : 1 < (pre :: fn :: splitOnQuote post).length := by
    rw [List.length_cons, List.length_cons]
    omega
  rw [if_pos hlen]
  rfl

lemma stationary_event_key_eq (nodeId : Str) (msg : Str) (kd : Bool)
    (hkind : containsSub "has been stationary".data msg = kd) :
    stationary_event_key nodeId msg =
      (if kd then "stationary_start".data else "stationary_stop".data) ++
        "_".data ++ nodeId := by
  unfold stationary_event_key
  dsimp only
  rw [hkind]

lemma entered_infix_enter (fmt : Fmt) (nm nodeId fn : Str) (d r : ℚ) :
    containsSub "entered".data (renderG fmt (.enter nm nodeId fn d r)) = true := by
  simp only [containsSub, decide_eq_true_eq]
  apply List.IsInfix.trans
    (show "entered".data <:+: ") entered geofence ".data by decide)
  refine ⟨nm ++ " (".data ++ nodeId,
    [quoteChar] ++ fn ++ [quoteChar] ++ " (dist ".data ++ fmt.f2 d ++
      "km <= radius ".data ++ fmt.plain r ++ "km).".data, ?_⟩
  simp [renderG, List.append_assoc]

lemma stationary_infix_started (fmt : Fmt) (nm nodeId : Str) (tTh dm : ℚ) :
    containsSub "has been stationary".data
      (renderS fmt (.started nm nodeId tTh dm)) = true := by
  simp only [containsSub, decide_eq_true_eq]
  apply List.IsInfix.trans
    (show "has been stationary".data <:+: ") has been stationary for >".data by decide)
  refine ⟨nm ++ " (".data ++ nodeId,
    fmt.plain tTh ++ "s (moved ".data ++ fmt.f1 (dm * 1000) ++ "m).".data, ?_⟩
  simp [renderS, List.append_assoc]

/-- C8 (amended): the throttle keys built by the periodic check loop.
Stationary events get the two-segment key kind then node id, with no
trailing fence segment; geofence events get kind, node id and the fence
name as third segment provided the display name, node id, fence name
and rendered numbers contain no apostrophe and the rendered message of
an exit-type event does not contain the substring `entered` (and a
moving-again message does not contain `has been stationary`). -/
theorem claimC8 (fmt : Fmt) (nm nodeId fn : Str) (d r tTh dm span : ℚ)
    (dOpt : Option ℚ) (i j : ℕ)
    (hnm : quoteChar ∉ nm) (hid : quoteChar ∉ nodeId) (hfn : quoteChar ∉ fn)
    (hxent : containsSub "entered".data (renderG fmt (.exit nm nodeId fn dOpt r)) = false)
    (huent : containsSub "entered".data (renderG fmt (.exitUnknown nm nodeId fn)) = false)
    (hmov : containsSub "has been stationary".data
      (renderS fmt (.ended nm nodeId dm span)) = false) :
    geofence_event_key nodeId i (renderG fmt (.enter nm nodeId fn d r)) =
      "geofence_enter".data ++ "_".data ++ nodeId ++ "_".data ++ fn ∧
    geofence_event_key nodeId i (renderG fmt (.exit nm nodeId fn dOpt r)) =
      "geofence_exit".data ++ "_".data ++ nodeId ++ "_".data ++ fn ∧
    geofence_event_key nodeId j (renderG fmt (.exitUnknown nm nodeId fn)) =
      "geofence_exit".data ++ "_".data ++ nodeId ++ "_".data ++ fn ∧
    stationary_event_key nodeId (renderS fmt (.started nm nodeId tTh dm)) =
      "stationary_start".data ++ "_".data ++ nodeId ∧
    stationary_event_key nodeId (renderS fmt (.ended nm nodeId dm span)) =
      "stationary_stop".data ++ "_".data ++ nodeId := by
  have hpre_e : quoteChar ∉ nm ++ " (".data ++ nodeId ++ ") entered geofence ".data := by
    intro h
    rcases List.mem_append.mp h with h | h
    · rcases List.mem_append.mp h with h | h
      · rcases List.mem_append.mp h with h | h
        · exact hnm h
        · revert h; decide
      · exact hid h
    · revert h; decide
  have hpre_x : quoteChar ∉ nm ++ " (".data ++ nodeId ++ ") exited geofence ".data := by
    intro h
    rcases List.mem_append.mp h with h | h
    · rcases List.mem_append.mp h with h | h
      · rcases List.mem_append.mp h with h | h
        · exact hnm h
        · revert h; decide
      · exact hid h
    · revert h; decide
  refine ⟨?_, ?_, ?_, ?_, ?_⟩
  · rw [geofence_event_key_eq nodeId i _
      (nm ++ " (".data ++ nodeId ++ ") entered geofence ".data) fn
      (" (dist ".data ++ fmt.f2 d ++ "km <= radius ".data ++ fmt.plain r ++ "km).".data)
      true (by simp [renderG, List.append_assoc]) hpre_e hfn
      (entered_infix_enter fmt nm nodeId fn d r)]
    rfl
  · cases dOpt with
    | none =>
      rw [geofence_event_key_eq nodeId i _
        (nm ++ " (".data ++ nodeId ++ ") exited geofence ".data) fn
        (" (dist ".data ++ "unknown distance".data ++ " > radius ".data ++
          fmt.plain r ++ "km).".data)
        false (by simp [renderG, List.append_assoc]) hpre_x hfn hxent]
      rfl
    | some dd =>
      rw [geofence_event_key_eq nodeId i _
        (nm ++ " (".data ++ nodeId ++ ") exited geofence ".data) fn
        (" (dist ".data ++ (fmt.f2 dd ++ "km".data) ++ " > radius ".data ++
          fmt.plain r ++ "km).".data)
        false (by simp [renderG, List.append_assoc]) hpre_x hfn hxent]
      rfl
  · rw [geofence_event_key_eq nodeId j _
      (nm ++ " (".data ++ nodeId ++ ") exited geofence ".data) fn
      (" (position unknown).".data)
      false (by simp [renderG, List.append_assoc]) hpre_x hfn huent]
    rfl
  · rw [stationary_event_key_eq nodeId _ true
      (stationary_infix_started fmt nm nodeId tTh dm)]
    rfl
  · rw [stationary_event_key_eq nodeId _ false hmov]
    rfl

/-- C8 counterexample: (a) a stationary key is kind then node id with
no trailing underscore, so it does not match the claimed three-segment
shape with an empty fence segment; (b) a fence name containing an
apostrophe is not recovered as the third segment; (c) an Exit whose
fence name contains `entered` is keyed with kind `geofence_enter`. -/
theorem claimC8_counterexample :
    stationary_event_key "!abc".data
        (renderS fmtC (.started "N".data "!abc".data 300 0)) =
      "stationary_start_!abc".data ∧
    stationary_event_key "!abc".data
        (renderS fmtC (.started "N".data "!abc".data 300 0)) ≠
      "stationary_start".data ++ "_".data ++ "!abc".data ++ "_".data ++ [] ∧
    geofence_event_key "!abc".data 0
        (renderG fmtC (.enter "N".data "!abc".data
          ("O".data ++ [quoteChar] ++ "Hare".data) 0 1)) ≠
      "geofence_enter".data ++ "_".data ++ "!abc".data ++ "_".data ++
        ("O".data ++ [quoteChar] ++ "Hare".data) ∧
    geofence_event_key "!abc".data 0
        (renderG fmtC (.exit "N".data "!abc".data "reentered".data (some 2) 1)) ≠
      "geofence_exit".data ++ "_".data ++ "!abc".data ++ "_".data ++ "reentered".data := by
  refine ⟨by decide, by decide, by decide, by decide⟩

/-- Closed witness for `claimC8` at concrete names, numbers and the
concrete renderer `fmtC`. -/
theorem claimC8_witness :
    quoteChar ∉ "N".data ∧ quoteChar ∉ "!abc".data ∧ quoteChar ∉ "Base".data ∧
    containsSub "entered".data
      (renderG fmtC (.exit "N".data "!abc".data "Base".data (some 2) 1)) = false ∧
    containsSub "entered".data
      (renderG fmtC (.exitUnknown "N".data "!abc".data "Base".data)) = false ∧
    containsSub "has been stationary".data
      (renderS fmtC (.ended "N".data "!abc".data 0 100)) = false ∧
    (geofence_event_key "!abc".data 0
        (renderG fmtC (.enter "N".data "!abc".data "Base".data 0 1)) =
      "geofence_enter".data ++ "_".data ++ "!abc".data ++ "_".data ++ "Base".data ∧
    geofence_event_key "!abc".data 0
        (renderG fmtC (.exit "N".data "!abc".data "Base".data (some 2) 1)) =
      "geofence_exit".data ++ "_".data ++ "!abc".data ++ "_".data ++ "Base".data ∧
    geofence_event_key "!abc".data 1
        (renderG fmtC (.exitUnknown "N".data "!abc".data "Base".data)) =
      "geofence_exit".data ++ "_".data ++ "!abc".data ++ "_".data ++ "Base".data ∧
    stationary_event_key "!abc".data
        (renderS fmtC (.started "N".data "!abc".data 300 0)) =
      "stationary_start".data ++ "_".data ++ "!abc".data ∧
    stationary_event_key "!abc".data
        (renderS fmtC (.ended "N".data "!abc".data 0 100)) =
      "stationary_stop".data ++ "_".data ++ "!abc".data) :=
  ⟨by decide, by decide, by decide, by decide, by decide, by decide,
   claimC8 fmtC "N".data "!abc".data "Base".data 0 1 300 0 100 (some 2) 0 1
     (by decide) (by decide) (by decide) (by decide) (by decide) (by decide)⟩
